import Mathlib

/-!
# pokecards: the request / response / report pipeline of `main.go`

A shallow embedding of `src/main.go`.  The program is one linear call chain
(`main` calls `drawCards` once); everything it does to the outside world is
recorded here as a list of `Event`s, and everything the outside world decides
(the flags, file-system and exporter errors, what `client.Do` answers, the
measured decode time) is a field of `Env`.

The Go standard library is not part of the repository.  The parts of it the
program relies on are modelled next to their use:

* `net/url`: `Values.Add`, `Values.Encode`, `QueryEscape`, `ParseQuery`,
  `QueryUnescape`, at the level of the query text;
* `encoding/json`: at the level of JSON values (`Json`).  A JSON text is
  represented by the value it denotes, so `json.Marshal` yields a `Json` and
  the decoder consumes the `Json` scanned from the body (or the scanner's
  failure).
-/

namespace Pokecards

/-! ## `net/url`: query strings -/

/-- Upper-case hexadecimal digit of a number below 16 (`upperhex` in `net/url`). -/
def upperhex (n : Nat) : Char :=
  if n < 10 then Char.ofNat (48 + n) else Char.ofNat (55 + n)

/-- The function `shouldEscape(c, encodeQueryComponent)` of `net/url`, on a byte:
letters, digits and `-` `_` `.` `~` are kept, every other byte is escaped. -/
def shouldEscape (b : Nat) : Bool :=
  !((97 ≤ b ∧ b ≤ 122) ∨ (65 ≤ b ∧ b ≤ 90) ∨ (48 ≤ b ∧ b ≤ 57)
    ∨ b = 45 ∨ b = 95 ∨ b = 46 ∨ b = 126)

/-- Escaping of one byte by `url.QueryEscape`: a space becomes `+`, a byte that
must be escaped becomes `%XX`. -/
def escapeByte (b : Nat) : List Char :=
  if b = 32 then ['+']
  else if shouldEscape b then ['%', upperhex (b / 16 % 16), upperhex (b % 16)]
  else [Char.ofNat b]

/-- The bytes of a Go string (its UTF-8 encoding), as numbers below 256. -/
def utf8 (s : String) : List Nat :=
  (s.toList.flatMap String.utf8EncodeChar).map UInt8.toNat

/-- The function `url.QueryEscape`, from the bytes of a string to the escaped text. -/
def queryEscape (bs : List Nat) : List Char :=
  bs.flatMap escapeByte

/-- The type `url.Values`: keys with their values, in the order of insertion.
Go keeps them in a map; the order is only an artefact of the model and
`Values.Encode` sorts the keys. -/
abbrev Values := List (String × List String)

/-- The method `Values.Add`: append a value to the values of a key. -/
def Values.Add : Values → String → String → Values
  | [], k, v => [(k, [v])]
  | (k', vs) :: rest, k, v =>
    if k' = k then (k', vs ++ [v]) :: rest else (k', vs) :: Values.Add rest k v

/-- Byte-wise lexicographic order on byte strings (the order of `sort.Strings`). -/
def bytesLe : List Nat → List Nat → Bool
  | [], _ => true
  | _ :: _, [] => false
  | a :: as, b :: bs => a < b || (a == b && bytesLe as bs)

/-- Insertion of a key/values pair into a list sorted by key. -/
def insertByKey (p : String × List String) : Values → Values
  | [] => [p]
  | q :: rest =>
    if bytesLe (utf8 p.1) (utf8 q.1) then p :: q :: rest else q :: insertByKey p rest

/-- The keys of the values, sorted (`slices.Sort(keys)` in `Values.Encode`). -/
def sortByKey : Values → Values
  | [] => []
  | p :: rest => insertByKey p (sortByKey rest)

/-- The `key=value` pairs `Values.Encode` writes, in order: keys sorted, and for
each key its values in insertion order, both sides escaped. -/
def encodePairs (vs : Values) : List (List Char) :=
  (sortByKey vs).flatMap fun p =>
    p.2.map fun v => queryEscape (utf8 p.1) ++ '=' :: queryEscape (utf8 v)

/-- Join with `&`. -/
def joinAmp : List (List Char) → List Char
  | [] => []
  | [x] => x
  | x :: y :: rest => x ++ '&' :: joinAmp (y :: rest)

/-- The method `Values.Encode`: the URL-encoded form, sorted by key. -/
def Values.Encode (vs : Values) : String :=
  String.mk (joinAmp (encodePairs vs))

/-- Split a text at every occurrence of a separator character. -/
def splitAt (sep : Char) : List Char → List (List Char)
  | [] => [[]]
  | c :: cs =>
    if c = sep then [] :: splitAt sep cs
    else match splitAt sep cs with
      | [] => [[c]]
      | seg :: segs => (c :: seg) :: segs

/-- The function `strings.Cut(s, sep)` for a one-character separator: the text
before the first separator and the text after it. -/
def cut (sep : Char) : List Char → List Char × List Char
  | [] => ([], [])
  | c :: cs =>
    if c = sep then ([], cs)
    else ((cut sep cs).1.cons c, (cut sep cs).2)

/-- Value of a hexadecimal digit (`unhex` in `net/url`), if it is one. -/
def unhex (c : Char) : Option Nat :=
  let n := c.toNat
  if 48 ≤ n ∧ n ≤ 57 then some (n - 48)
  else if 97 ≤ n ∧ n ≤ 102 then some (n - 97 + 10)
  else if 65 ≤ n ∧ n ≤ 70 then some (n - 65 + 10)
  else none

/-- The function `url.QueryUnescape`: `%XX` becomes the byte `XX`, `+` becomes a
space, a `%` not followed by two hexadecimal digits is an error (`none`). The
text is a sequence of bytes, one `Char` each; the result is the byte string. -/
def queryUnescape : List Char → Option (List Nat)
  | [] => some []
  | c :: rest =>
    if c = '%' then
      match rest with
      | a :: b :: rest' =>
        match unhex a, unhex b, queryUnescape rest' with
        | some x, some y, some r => some ((16 * x + y) :: r)
        | _, _, _ => none
      | _ => none
    else if c = '+' then (queryUnescape rest).map (32 :: ·)
    else (queryUnescape rest).map (c.toNat :: ·)

/-- Decoded query parameters: byte-string keys with their byte-string values,
keys in order of first appearance. -/
abbrev RawValues := List (List Nat × List (List Nat))

/-- The assignment `m[key] = append(m[key], value)`. -/
def RawValues.Add : RawValues → List Nat → List Nat → RawValues
  | [], k, v => [(k, [v])]
  | (k', vs) :: rest, k, v =>
    if k' = k then (k', vs ++ [v]) :: rest else (k', vs) :: RawValues.Add rest k v

/-- One round of the loop of `parseQuery` of `net/url`, on one `&`-separated
segment: the updated values and whether the segment was in error. -/
def parseSegment (m : RawValues) (seg : List Char) : RawValues × Bool :=
  if seg.contains ';' then (m, true)
  else if seg = [] then (m, false)
  else
    match queryUnescape (cut '=' seg).1, queryUnescape (cut '=' seg).2 with
    | some k, some v => (m.Add k v, false)
    | _, _ => (m, true)

/-- The loop of `parseQuery` over the segments of the query. -/
def parseSegments : RawValues → Bool → List (List Char) → RawValues × Bool
  | m, e, [] => (m, e)
  | m, e, seg :: segs =>
    parseSegments (parseSegment m seg).1 (e || (parseSegment m seg).2) segs

/-- The function `url.ParseQuery`: the decoded parameters, and whether an error
was met (Go returns the values decoded so far together with the first error). -/
def parseQuery (query : String) : RawValues × Bool :=
  parseSegments [] false (splitAt '&' query.toList)

/-! ## The request of `drawCards` -/

/-- The constant `api_endpoint`. -/
def api_endpoint : String := "https://api.pokemontcg.io/v2/cards"

/-- An outbound request: method, URL without the query, and `URL.RawQuery`. -/
structure Request where
  Method : String
  URL : String
  RawQuery : String
  deriving DecidableEq, Repr

/-- The function `strconv.Itoa`. -/
def Itoa (n : Int) : String := toString n

/-- The characters `strconv.Itoa` can produce. -/
def itoaChars : List Char := ['-', '0', '1', '2', '3', '4', '5', '6', '7', '8', '9']

/-- The filter predicate `drawCards` sends as the `q` parameter. -/
def filterQuery : String :=
  "(types:fire OR types:grass) -types:metal rarity:rare -rarity:holo -rarity:promo"

/-- The query `drawCards` builds: `req.URL.Query()` of the endpoint (which has no
query, hence empty) followed by the three `query.Add` calls. -/
def buildQuery (limit : Int) : Values :=
  ((Values.Add [] "pageSize" (Itoa limit)).Add "orderBy" "id").Add "q" filterQuery

/-- The request `drawCards` builds (lines 90 to 98): `http.NewRequestWithContext`
with method `GET` and the endpoint, then `RawQuery = query.Encode()`. -/
def buildRequest (limit : Int) : Request :=
  { Method := "GET", URL := api_endpoint, RawQuery := (buildQuery limit).Encode }

/-! ## `encoding/json`: values, decoding into the program's types, encoding -/

/-- A JSON value. An object keeps its members in the order of the text, with
repeated names kept. -/
inductive Json where
  | null
  | bool (b : Bool)
  | number (lit : String)
  | str (s : String)
  | arr (elems : List Json)
  | obj (members : List (String × Json))

/-- A Go slice: `none` is the nil slice, `some l` a non-nil slice with elements `l`. -/
abbrev Slice (α : Type) := Option (List α)

/-- The builtin `len` on a slice. -/
def Slice.len {α : Type} : Slice α → Nat
  | none => 0
  | some l => l.length

/-- The struct `Card`. The JSON names of its fields are those of the tags:
`ID`, `Name`, `Types`, `HP`, `Rarity`. The Go field `Type` is called `Types` here,
after its tag, because `Type` is a keyword. -/
structure Card where
  ID : String
  Name : String
  Types : Slice String
  HP : String
  Rarity : String
  deriving DecidableEq, Repr

/-- The struct `CardList`; the JSON name of its field `Cards` is `data`. -/
structure CardList where
  Cards : Slice Card
  deriving DecidableEq, Repr

/-- A slice variable as the decoder sees it: the slice itself, and the elements
its backing array still holds between the length and the capacity of the slice.
Shrinking a slice keeps them there, and growing it again brings them back.
Memory that was never written holds zero values and is not listed. -/
structure SliceMem (α : Type) where
  slice : Slice α
  spare : List α
  deriving DecidableEq, Repr

/-- The backing array of a slice variable from index 0: its elements, then the
spare ones. -/
def SliceMem.backing {α : Type} (m : SliceMem α) : List α :=
  m.slice.getD [] ++ m.spare

/-- A `Card` variable as the decoder sees it: the fields of the card, the
`[]string` with its backing array. -/
structure CardMem where
  ID : String
  Name : String
  Types : SliceMem String
  HP : String
  Rarity : String
  deriving DecidableEq, Repr

/-- The zero value of `Card`. -/
def CardMem.zero : CardMem := ⟨"", "", ⟨none, []⟩, "", ""⟩

/-- The `Card` held by a `Card` variable. -/
def CardMem.card (m : CardMem) : Card :=
  ⟨m.ID, m.Name, m.Types.slice, m.HP, m.Rarity⟩

/-- A `Card` in a variable whose `[]string` has no spare elements. -/
def CardMem.ofCard (c : Card) : CardMem :=
  ⟨c.ID, c.Name, ⟨c.Types, []⟩, c.HP, c.Rarity⟩

/-- A `CardList` variable as the decoder sees it. -/
structure CardListMem where
  Cards : SliceMem CardMem
  deriving DecidableEq, Repr

/-- The `CardList` held by a `CardList` variable. -/
def CardListMem.cardList (m : CardListMem) : CardList :=
  ⟨m.Cards.slice.map (List.map CardMem.card)⟩

/-- The JSON names of the fields of `Card`, in declaration order. -/
def cardFields : List String := ["ID", "Name", "Types", "HP", "Rarity"]

/-- The JSON names of the fields of `CardList`. -/
def cardListFields : List String := ["data"]

/-- Case folding of one character as far as it can reach an ASCII letter: ASCII
lower case goes to upper case, and U+017F (long s) and U+212A (Kelvin sign), the
only other characters that fold to an ASCII letter, go to `S` and `K`. Other
characters are left alone: the field names are ASCII, so a name with such a
character matches no field either way. -/
def foldRune (c : Char) : Char :=
  if c = Char.ofNat 0x17F then 'S'
  else if c = Char.ofNat 0x212A then 'K'
  else c.toUpper

/-- The function `foldName` of `encoding/json`. -/
def foldName (s : String) : String :=
  String.mk (s.toList.map foldRune)

/-- The field an object key selects when decoding into a struct: the field with
exactly that name, else the first field whose folded name equals the folded
key; `none` when the key is unknown (its value is then skipped). -/
def findField (names : List String) (key : String) : Option String :=
  match names.find? (fun n => n == key) with
  | some n => some n
  | none => names.find? (fun n => foldName n == foldName key)

/-- Decoding a JSON value into a `string` that currently holds `old`: a string
is stored, `null` leaves the value alone, anything else is an
`UnmarshalTypeError` (`none`). -/
def decodeString (old : String) : Json → Option String
  | .str s => some s
  | .null => some old
  | _ => none

/-- Decoding the elements of a JSON array into a `[]string` whose backing array
holds `mem` from index 0: element `i` is decoded into what the backing array
holds at index `i`, be it a current element of the slice or a spare one, and
into a zero value beyond the backing array (the slice is grown, into zeroed
memory). -/
def decodeStringElems : List String → List Json → Option (List String)
  | _, [] => some []
  | mem, j :: js =>
    match decodeString (mem.headD "") j, decodeStringElems mem.tail js with
    | some s, some ss => some (s :: ss)
    | _, _ => none

/-- Decoding a JSON value into a `[]string` variable: `null` makes the slice nil
(`v.SetZero()`); an empty array makes it a fresh empty slice
(`reflect.MakeSlice(v.Type(), 0, 0)`); another array is decoded element by
element into the backing array, the length becomes the number of elements, and
what the backing array holds behind them stays as spare; anything else is an
`UnmarshalTypeError`. -/
def decodeStringSlice (old : SliceMem String) : Json → Option (SliceMem String)
  | .null => some ⟨none, []⟩
  | .arr js =>
    if js.isEmpty then some ⟨some [], []⟩
    else (decodeStringElems old.backing js).map fun ss =>
      ⟨some ss, old.backing.drop js.length⟩
  | _ => none

/-- Decoding the value of one member into the field of a `Card` it selects. -/
def setCardField (c : CardMem) (field : String) (v : Json) : Option CardMem :=
  if field = "ID" then (decodeString c.ID v).map fun x => { c with ID := x }
  else if field = "Name" then (decodeString c.Name v).map fun x => { c with Name := x }
  else if field = "Types" then (decodeStringSlice c.Types v).map fun x => { c with Types := x }
  else if field = "HP" then (decodeString c.HP v).map fun x => { c with HP := x }
  else if field = "Rarity" then (decodeString c.Rarity v).map fun x => { c with Rarity := x }
  else some c

/-- Decoding the members of a JSON object into a `Card`, in the order of the
text: a member whose key selects no field is skipped. -/
def decodeCardMembers : CardMem → List (String × Json) → Option CardMem
  | c, [] => some c
  | c, (k, v) :: rest =>
    match findField cardFields k with
    | none => decodeCardMembers c rest
    | some f =>
      match setCardField c f v with
      | some c' => decodeCardMembers c' rest
      | none => none

/-- Decoding a JSON value into a `Card` variable that currently holds `old`: an
object is decoded member by member, `null` leaves the value alone, anything else
is an `UnmarshalTypeError`. -/
def decodeCard (old : CardMem) : Json → Option CardMem
  | .obj ms => decodeCardMembers old ms
  | .null => some old
  | _ => none

/-- Decoding the elements of a JSON array into a `[]Card` whose backing array
holds `mem` from index 0 (see `decodeStringElems`). -/
def decodeCardElems : List CardMem → List Json → Option (List CardMem)
  | _, [] => some []
  | mem, j :: js =>
    match decodeCard (mem.headD CardMem.zero) j, decodeCardElems mem.tail js with
    | some c, some cs => some (c :: cs)
    | _, _ => none

/-- Decoding a JSON value into a `[]Card` variable (see `decodeStringSlice`). -/
def decodeCardSlice (old : SliceMem CardMem) : Json → Option (SliceMem CardMem)
  | .null => some ⟨none, []⟩
  | .arr js =>
    if js.isEmpty then some ⟨some [], []⟩
    else (decodeCardElems old.backing js).map fun cs =>
      ⟨some cs, old.backing.drop js.length⟩
  | _ => none

/-- Decoding the members of a JSON object into a `CardList` variable. -/
def decodeCardListMembers : CardListMem → List (String × Json) → Option CardListMem
  | cl, [] => some cl
  | cl, (k, v) :: rest =>
    match findField cardListFields k with
    | none => decodeCardListMembers cl rest
    | some _ =>
      match decodeCardSlice cl.Cards v with
      | some cs => decodeCardListMembers ⟨cs⟩ rest
      | none => none

/-- Unmarshalling a JSON value into a fresh `CardList` variable. -/
def decodeCardListMem : Json → Option CardListMem
  | .obj ms => decodeCardListMembers ⟨⟨none, []⟩⟩ ms
  | .null => some ⟨⟨none, []⟩⟩
  | _ => none

/-- Unmarshalling a JSON value into the fresh `var cardList CardList` of
`drawCards`, and the `CardList` it then holds; `none` is an
`UnmarshalTypeError`. -/
def decodeCardList (j : Json) : Option CardList :=
  (decodeCardListMem j).map CardListMem.cardList

/-- The `Card` a JSON value decodes to in a fresh `Card` variable. -/
def decodeFreshCard (j : Json) : Option Card :=
  (decodeCard CardMem.zero j).map CardMem.card

/-- Encoding of a `[]string` by `json.Marshal`: a nil slice is `null`. -/
def marshalStrings : Slice String → Json
  | none => .null
  | some l => .arr (l.map .str)

/-- Encoding of a `Card` by `json.Marshal`: an object with the five tagged names,
in declaration order. -/
def marshalCard (c : Card) : Json :=
  .obj [("ID", .str c.ID), ("Name", .str c.Name), ("Types", marshalStrings c.Types),
    ("HP", .str c.HP), ("Rarity", .str c.Rarity)]

/-- Encoding of a `[]Card` by `json.Marshal`: a nil slice is `null`. -/
def marshalCards : Slice Card → Json
  | none => .null
  | some l => .arr (l.map marshalCard)

/-! ## Errors, events, environment -/

/-- A Go `error` value as the program sees it. -/
inductive GoError where
  /-- An error made outside the program (file system, exporter, `net/http`,
  the JSON scanner), with its text. -/
  | external (msg : String)
  /-- A `*json.UnmarshalTypeError`. -/
  | unmarshalType
  /-- The value `fmt.Errorf(context + ": %w", cause)`. -/
  | wrapped (context : String) (cause : GoError)
  /-- The value `fmt.Errorf("HTTP/%v", code)`. -/
  | httpStatus (code : Int)
  deriving DecidableEq, Repr

/-- The loggers of the program: the standard logger (used by `errHandler`), and
the `INFO` and `ERROR` loggers writing to the log file. -/
inductive Logger where
  | std
  | info
  | error
  deriving DecidableEq, Repr

/-- An argument of a logging call. -/
inductive LogArg where
  | text (s : String)
  | err (e : GoError)
  deriving DecidableEq, Repr

/-- A span attribute: `attribute.Int` / `attribute.Int64`, or `attribute.String`. -/
inductive Attr where
  | int (key : String) (value : Int)
  | string (key : String) (value : String)
  deriving DecidableEq, Repr

/-- The effects of the program on the outside world, one event per call. -/
inductive Event where
  /-- The call `os.MkdirAll(path, os.ModePerm)`. -/
  | mkdirAll (path : String)
  /-- The call `os.OpenFile(path, ...)` for the log file. -/
  | openFile (path : String)
  /-- The call `otlptrace.New` of `initTraceProvider`. -/
  | newExporter
  /-- A `Printf` or `Fatalf` on a logger, with its format and arguments. -/
  | logPrintf (logger : Logger) (format : String) (args : List LogArg)
  /-- The call `tracer.Start(ctx, name)`. -/
  | spanStart (name : String)
  /-- The call `SetAttributes` on the span of that name. -/
  | setAttributes (span : String) (attrs : List Attr)
  /-- The call `End` on the span of that name. -/
  | spanEnd (name : String)
  /-- The call `client.Do(req)`. -/
  | clientDo (req : Request)
  /-- The call `resp.Body.Close()`. -/
  | bodyClose
  /-- The call `fmt.Println(string(jsonData))`, with the JSON value written. -/
  | println (jsonData : Json)
  /-- The call `tp.Shutdown(ctx)`. -/
  | shutdown
  /-- The call `logWriter.Close()`. -/
  | fileClose
  /-- The process ends with this status: `os.Exit(1)` inside `Fatalf`, or the
  return of `main` (status 0). -/
  | exit (status : Nat)
  /-- The process dies of a run-time panic, after the deferred calls have run. -/
  | crash

/-- An HTTP response: its status code and what `json.NewDecoder(resp.Body)` scans
from its body, either the JSON value or the text of the scanner's failure
(syntax error, empty body, read error). -/
structure Response where
  StatusCode : Int
  Body : Except String Json

/-- Everything the outside world decides in one run. -/
structure Env where
  /-- Flag `-limit`. -/
  limit : Int
  /-- Flag `-log`. -/
  logFile : String
  /-- Error of `os.MkdirAll`, if any. -/
  mkdirErr : Option String
  /-- Error of `os.OpenFile`, if any. -/
  openErr : Option String
  /-- Error of `otlptrace.New`, if any. -/
  exporterErr : Option String
  /-- Error of `http.NewRequestWithContext`, if any. -/
  newRequestErr : Option String
  /-- Answer of `client.Do`: the response, if there is one, and the error, if any. -/
  clientDo : Request → Option Response × Option String
  /-- The measured `time.Since(startTime).Milliseconds()`. -/
  elapsedMs : Int
  /-- Error of `tp.Shutdown`, if any. -/
  shutdownErr : Option String

/-- How a function call ends: it returns, or it panics. -/
inductive Outcome (α : Type) where
  | returned (a : α)
  | panicked

/-- A call: the events it caused, in order, and how it ended. -/
structure Run (α : Type) where
  events : List Event
  outcome : Outcome α

/-! ## `drawCards` -/

/-- The result type of `drawCards`: `(*CardList, string, error)`. -/
abbrev Fetch := Option CardList × String × Option GoError

/-- The call `json.NewDecoder(resp.Body).Decode(&cardList)` (line 115): the
scanner's failure, or an `UnmarshalTypeError`, or the decoded `CardList`. -/
def decodeBody (body : Except String Json) : Except GoError CardList :=
  match body with
  | .error msg => .error (.external msg)
  | .ok j =>
    match decodeCardList j with
    | some cl => .ok cl
    | none => .error .unmarshalType

/-- The function `drawCards` (lines 88 to 131). -/
def drawCards (env : Env) (limit : Int) : Run Fetch :=
  match env.newRequestErr with
  | some e => ⟨[], .returned (none, "", some (.wrapped "failed to create HTTP request" (.external e)))⟩
  | none =>
    let req := buildRequest limit
    -- `ctx, span := tracer.Start(ctx, "drawCardsHTTP")`, `defer span.End()`
    let started := [Event.spanStart "drawCardsHTTP", Event.clientDo req]
    match env.clientDo req with
    | (none, _) =>
      -- `resp.StatusCode` on a nil `resp`
      ⟨started ++ [.spanEnd "drawCardsHTTP"], .panicked⟩
    | (some resp, some e) =>
      ⟨started ++ [.spanEnd "drawCardsHTTP"],
        .returned (none, Itoa resp.StatusCode,
          some (.wrapped "failed to perform HTTP request" (.external e)))⟩
    | (some resp, none) =>
      -- `defer resp.Body.Close()`
      match decodeBody resp.Body with
      | .error e =>
        ⟨started ++ [.bodyClose, .spanEnd "drawCardsHTTP"],
          .returned (none, Itoa resp.StatusCode, some (.wrapped "failed to decode JSON" e))⟩
      | .ok cardList =>
        let attrs := Event.setAttributes "drawCardsHTTP"
          [.int "http.status_code" resp.StatusCode, .int "json.unmarshal_time_ms" env.elapsedMs]
        if resp.StatusCode ≠ 200 then
          ⟨started ++ [attrs,
              .setAttributes "drawCardsHTTP" [.string "error" "non-OK HTTP status code"],
              .bodyClose, .spanEnd "drawCardsHTTP"],
            .returned (some cardList, Itoa resp.StatusCode, some (.httpStatus resp.StatusCode))⟩
        else
          ⟨started ++ [attrs, .bodyClose, .spanEnd "drawCardsHTTP"],
            .returned (some cardList, Itoa resp.StatusCode, none)⟩

/-! ## `main` and its helpers -/

/-- The function `errHandler`: on an error, `log.Fatalf` (print, then
`os.Exit(1)`, so that nothing else runs, deferred calls included); otherwise
the program goes on with `next`. -/
def errHandler (err : Option String) (message : String) (next : List Event) : List Event :=
  match err with
  | some e => [.logPrintf .std "%s: %v" [.text message, .err (.external e)], .exit 1]
  | none => next

/-- The function `logError` on the `ERROR` logger: on an error, `logger.Fatalf`
(print, then `os.Exit(1)`); otherwise the program goes on with `next`. -/
def logError (err : Option GoError) (message : String) (next : List Event) : List Event :=
  match err with
  | some e => [.logPrintf .error "%s: %v" [.text message, .err e], .exit 1]
  | none => next

/-- The function `logInfo` on the `INFO` logger. -/
def logInfo (message : String) : List Event :=
  [.logPrintf .info "%s" [.text message]]

/-- The function `initTraceProvider`: the exporter is created, and its error, if
any, is fatal through `errHandler`. -/
def initTraceProvider (env : Env) (next : List Event) : List Event :=
  .newExporter :: errHandler env.exporterErr "Failed to create OTLP exporter" next

/-- The deferred closure of lines 60 to 64: `tp.Shutdown`, whose error is printed
on the `ERROR` logger. -/
def shutdownProvider (env : Env) : List Event :=
  .shutdown ::
    match env.shutdownErr with
    | some e => [.logPrintf .error "Failed to shut down tracer provider: %v" [.err (.external e)]]
    | none => []

/-- The deferred calls of `main` once all three are registered, in the order
they run (last registered first): `span.End()`, the shutdown closure,
`logWriter.Close()`. They run when `main` returns or panics, not on `os.Exit`. -/
def deferred (env : Env) : List Event :=
  [.spanEnd "drawCards"] ++ shutdownProvider env ++ [.fileClose]

/-- The call `json.Marshal(struct{ Cards []Card }{cards})` (line 82): an object
with the single member `Cards`; for these types it has no error. -/
def marshalOutput (cards : Slice Card) : Json × Option GoError :=
  (.obj [("Cards", marshalCards cards)], none)

/-- The text `fmt.Sprintf("HTTP/%v A wild %d cards appeared!\n", status, count)`. -/
def summary (httpStatusCode : String) (count : Nat) : String :=
  "HTTP/" ++ httpStatusCode ++ " A wild " ++ toString count ++ " cards appeared!\n"

/-- The function `main` (lines 38 to 86), after `flag.Parse`. -/
def main (env : Env) : List Event :=
  .mkdirAll "./logs" ::
  errHandler env.mkdirErr "Failed to create log directory" (
  .openFile env.logFile ::
  errHandler env.openErr "Failed to open log file" (
  -- `defer logWriter.Close()`
  initTraceProvider env (
  -- `defer func() { tp.Shutdown(ctx) ... }()`
  .spanStart "drawCards" ::
  -- `defer span.End()`
  (drawCards env env.limit).events ++
  match (drawCards env env.limit).outcome with
  | .panicked => deferred env ++ [.crash]
  | .returned (cardData, httpStatusCode, err) =>
    logError err "Failed to make cards appear" (
    match cardData with
    | none => deferred env ++ [.crash]
    | some cardData =>
      logError (marshalOutput cardData.Cards).2 "Failed to marshal JSON: %v" (
      logInfo (summary httpStatusCode cardData.Cards.len) ++
      [.println (marshalOutput cardData.Cards).1] ++
      deferred env ++ [.exit 0])))))

/-! ## Observations on a run -/

/-- The requests handed to `client.Do`, in order. -/
def requestsSent (es : List Event) : List Request :=
  es.filterMap fun
    | .clientDo req => some req
    | _ => none

/-- The JSON values written to standard output, in order. -/
def stdout (es : List Event) : List Json :=
  es.filterMap fun
    | .println j => some j
    | _ => none

/-- The calls on a logger, in order: format and arguments. -/
def logged (logger : Logger) (es : List Event) : List (String × List LogArg) :=
  es.filterMap fun
    | .logPrintf l format args => if l = logger then some (format, args) else none
    | _ => none

/-- The number of calls of `tp.Shutdown`. -/
def shutdownCalls (es : List Event) : Nat :=
  (es.filter fun
    | .shutdown => true
    | _ => false).length

/-- The attributes recorded on the span of a name, in order of recording. -/
def recordedAttrs (span : String) (es : List Event) : List Attr :=
  es.flatMap fun
    | .setAttributes s attrs => if s = span then attrs else []
    | _ => []

/-! ## Well-formed response bodies -/

/-- A JSON string or `null`: what a `string` field accepts. -/
def isStringOrNull : Json → Bool
  | .str _ => true
  | .null => true
  | _ => false

/-- An array of strings (or `null`s), or `null`: what the `[]string` field accepts. -/
def isStringArrayOrNull : Json → Bool
  | .null => true
  | .arr js => js.all isStringOrNull
  | _ => false

/-- A member of a card object fits when its key selects no field of `Card`, or
its value has the JSON type of the field it selects. -/
def memberFits (m : String × Json) : Bool :=
  match findField cardFields m.1 with
  | none => true
  | some f => if f = "Types" then isStringArrayOrNull m.2 else isStringOrNull m.2

/-- A card object: a JSON object all of whose members fit. -/
def isCardObject : Json → Bool
  | .obj ms => ms.all memberFits
  | _ => false

/-- The values of the members of an object that select the field `data` of
`CardList`, in order. -/
def dataMembers (ms : List (String × Json)) : List Json :=
  (ms.filter fun m => (findField cardListFields m.1).isSome).map Prod.snd

/-! ## Sample runs -/

/-- A minimal card object as the catalogue sends it (lower-case names, and a
member the program does not read). -/
def sampleObject (id : String) : Json :=
  .obj [("id", .str id), ("name", .str "Charmander"), ("supertype", .str "Pokémon"),
    ("types", .arr [.str "Fire"]), ("hp", .str "50"), ("rarity", .str "Rare")]

/-- The `Card` decoded from `sampleObject id`. -/
def sampleCard (id : String) : Card :=
  ⟨id, "Charmander", some ["Fire"], "50", "Rare"⟩

/-- A run in which every set-up step succeeds and `client.Do` answers as given. -/
def sampleEnv (limit : Int) (answer : Option Response × Option String) : Env :=
  { limit := limit
    logFile := "./logs/pokecards.log"
    mkdirErr := none
    openErr := none
    exporterErr := none
    newRequestErr := none
    clientDo := fun _ => answer
    elapsedMs := 3
    shutdownErr := none }

/-- The members of a body with five card objects under `data`. -/
def fiveCardsMembers : List (String × Json) :=
  [("data", .arr [sampleObject "a1", sampleObject "a2", sampleObject "a3",
      sampleObject "a4", sampleObject "a5"]),
    ("page", .number "1"), ("pageSize", .number "5")]

/-- Limit 5, and a 200 response with five card objects. -/
def envFiveCards : Env :=
  sampleEnv 5 (some ⟨200, .ok (.obj fiveCardsMembers)⟩, none)

/-- A 500 response whose body is the object with an empty `data` array. -/
def envServerError : Env :=
  sampleEnv 10 (some ⟨500, .ok (.obj [("data", .arr [])])⟩, none)

/-- A 404 response whose body decodes to one card. -/
def envNotFound : Env :=
  sampleEnv 10 (some ⟨404, .ok (.obj [("data", .arr [sampleObject "a1"])])⟩, none)

/-- A 503 response whose body is not JSON. -/
def envBadBody : Env :=
  sampleEnv 10 (some ⟨503, .error "invalid character '<' looking for beginning of value"⟩, none)

/-- A 200 response in which `hp` is a number, which a `string` field rejects. -/
def envBadField : Env :=
  sampleEnv 10 (some ⟨200, .ok (.obj [("data", .arr [.obj [("hp", .number "50")]])])⟩, none)

/-- A 200 response whose object has a `data` array of two card objects and then
a member `DATA`, which selects the same field. -/
def envSecondData : Env :=
  sampleEnv 10 (some ⟨200, .ok (.obj [("data", .arr [sampleObject "a1", sampleObject "a2"]),
    ("DATA", .arr [sampleObject "zz"])])⟩, none)

/-- A 200 response whose body is the empty object. -/
def envEmptyObject : Env :=
  sampleEnv 10 (some ⟨200, .ok (.obj [])⟩, none)

/-- A card object that repeats the member `types`: two types, then one, then
one and a `null`. -/
def repeatedTypesObject : Json :=
  .obj [("types", .arr [.str "Fire", .str "Water"]), ("types", .arr [.str "Grass"]),
    ("types", .arr [.str "A", .null])]

/-- The JSON object `main` prints for `sampleCard id`. -/
def sampleCardJson (id : String) : Json :=
  .obj [("ID", .str id), ("Name", .str "Charmander"), ("Types", .arr [.str "Fire"]),
    ("HP", .str "50"), ("Rarity", .str "Rare")]

/-- The connection is refused: `client.Do` returns no response and an error. -/
def envRefused : Env :=
  sampleEnv 10 (none, some "dial tcp: connect: connection refused")

/-- Request construction fails. -/
def envNoRequest : Env :=
  { sampleEnv 10 (none, none) with newRequestErr := some "net/http: nil Context" }

/-! # Theorems -/

/-! ## The request -/

theorem digitChar_mem_itoaChars (d : Nat) (h : d < 10) : Nat.digitChar d ∈ itoaChars := by
  interval_cases d <;> decide

theorem toDigitsCore_mem_itoaChars (fuel : Nat) :
    ∀ (n : Nat) (ds : List Char), (∀ c ∈ ds, c ∈ itoaChars) →
      ∀ c ∈ Nat.toDigitsCore 10 fuel n ds, c ∈ itoaChars := by
  induction fuel with
  | zero => intro n ds h; simpa [Nat.toDigitsCore] using h
  | succ f ih =>
    intro n ds h
    have hd : ∀ c ∈ Nat.digitChar (n % 10) :: ds, c ∈ itoaChars := by
      intro c hc
      rcases List.mem_cons.mp hc with rfl | hc
      · exact digitChar_mem_itoaChars _ (Nat.mod_lt _ (by decide))
      · exact h c hc
    simp only [Nat.toDigitsCore]
    split
    · exact hd
    · exact ih _ _ hd

theorem Itoa_mem_itoaChars (n : Int) : ∀ c ∈ (Itoa n).toList, c ∈ itoaChars := by
  cases n with
  | ofNat m =>
    show ∀ c ∈ Nat.toDigitsCore 10 (m + 1) m [], c ∈ itoaChars
    exact toDigitsCore_mem_itoaChars _ _ _ (by simp)
  | negSucc m =>
    show ∀ c ∈ '-' :: Nat.toDigitsCore 10 (m + 1 + 1) (m + 1) [], c ∈ itoaChars
    intro c hc
    rcases List.mem_cons.mp hc with rfl | hc
    · decide
    · exact toDigitsCore_mem_itoaChars _ _ _ (by simp) c hc

theorem itoaChars_facts : ∀ c ∈ itoaChars,
    (String.utf8EncodeChar c).map UInt8.toNat = [c.toNat] ∧ escapeByte c.toNat = [c]
      ∧ c ≠ '&' ∧ c ≠ ';' ∧ c ≠ '%' ∧ c ≠ '+' ∧ c ≠ '=' := by
  decide

theorem utf8_of_itoaChars (ds : List Char) (h : ∀ c ∈ ds, c ∈ itoaChars) :
    utf8 (String.mk ds) = ds.map Char.toNat := by
  induction ds with
  | nil => rfl
  | cons c cs ih =>
    have hc := (itoaChars_facts c (h c (List.mem_cons_self _ _))).1
    have ih := ih (fun x hx => h x (List.mem_cons_of_mem _ hx))
    simp only [utf8, String.toList, List.flatMap_cons, List.map_append, List.map_cons] at ih ⊢
    rw [hc, ih]; rfl

theorem queryEscape_of_itoaChars (ds : List Char) (h : ∀ c ∈ ds, c ∈ itoaChars) :
    queryEscape (ds.map Char.toNat) = ds := by
  induction ds with
  | nil => rfl
  | cons c cs ih =>
    have hc := (itoaChars_facts c (h c (List.mem_cons_self _ _))).2.1
    have ih := ih (fun x hx => h x (List.mem_cons_of_mem _ hx))
    simp only [queryEscape, List.map_cons, List.flatMap_cons] at ih ⊢
    rw [hc, ih]; rfl

theorem queryUnescape_of_itoaChars (ds : List Char) (h : ∀ c ∈ ds, c ∈ itoaChars) :
    queryUnescape ds = some (ds.map Char.toNat) := by
  induction ds with
  | nil => rfl
  | cons c cs ih =>
    have hc := itoaChars_facts c (h c (List.mem_cons_self _ _))
    have ih := ih (fun x hx => h x (List.mem_cons_of_mem _ hx))
    have h1 : c ≠ '%' := hc.2.2.2.2.1
    have h2 : c ≠ '+' := hc.2.2.2.2.2.1
    unfold queryUnescape
    simp [h1, h2, ih]

theorem splitAt_of_not_mem (sep : Char) (xs : List Char) (h : sep ∉ xs) :
    splitAt sep xs = [xs] := by
  induction xs with
  | nil => rfl
  | cons c cs ih =>
    have hc : c ≠ sep := fun e => h (e ▸ List.mem_cons_self _ _)
    have ih := ih (fun hm => h (List.mem_cons_of_mem _ hm))
    simp [splitAt, hc, ih]

theorem splitAt_append_sep (sep : Char) (xs ys : List Char) (h : sep ∉ xs) :
    splitAt sep (xs ++ sep :: ys) = xs :: splitAt sep ys := by
  induction xs with
  | nil => simp [splitAt]
  | cons c cs ih =>
    have hc : c ≠ sep := fun e => h (e ▸ List.mem_cons_self _ _)
    have ih := ih (fun hm => h (List.mem_cons_of_mem _ hm))
    simp [splitAt, hc, ih]

set_option maxRecDepth 4000 in
/-- The text of the query `drawCards` sends, around the digits of the limit. -/
theorem buildRequest_rawQuery (N : Int) :
    (buildRequest N).RawQuery.toList =
      "orderBy=id".toList ++ '&' :: (("pageSize=".toList ++ (Itoa N).toList) ++ '&' ::
        "q=%28types%3Afire+OR+types%3Agrass%29+-types%3Ametal+rarity%3Arare+-rarity%3Aholo+-rarity%3Apromo".toList) := by
  have hD := Itoa_mem_itoaChars N
  have h1 : (buildRequest N).RawQuery.toList =
      "orderBy=id".toList ++ '&' :: (("pageSize=".toList ++ queryEscape (utf8 (String.mk (Itoa N).toList))) ++ '&' ::
        "q=%28types%3Afire+OR+types%3Agrass%29+-types%3Ametal+rarity%3Arare+-rarity%3Aholo+-rarity%3Apromo".toList) := by
    rfl
  rw [h1, utf8_of_itoaChars _ hD, queryEscape_of_itoaChars _ hD]

theorem parseSegment_pageSize (m : RawValues) (ds : List Char) (h : ∀ c ∈ ds, c ∈ itoaChars) :
    parseSegment m ("pageSize=".toList ++ ds) = (m.Add (utf8 "pageSize") (ds.map Char.toNat), false) := by
  have hsemi : ("pageSize=".toList ++ ds).contains ';' = false := by
    have hn : ';' ∉ "pageSize=".toList ++ ds := by
      intro hm
      rcases List.mem_append.mp hm with hm | hm
      · exact absurd hm (by decide)
      · exact (itoaChars_facts _ (h _ hm)).2.2.2.1 rfl
    simpa [List.contains] using hn
  have hcut : cut '=' ("pageSize=".toList ++ ds) = ("pageSize".toList, ds) := rfl
  have hne : ("pageSize=".toList ++ ds) ≠ [] := by simp
  have hk : queryUnescape "pageSize".toList = some (utf8 "pageSize") := by rfl
  rw [parseSegment, hsemi, if_neg (by simp), if_neg hne, hcut, hk, queryUnescape_of_itoaChars _ h]

/-- The only request `drawCards` hands to `client.Do` is the one it builds, and
it does so whenever the construction succeeds. -/
theorem drawCards_requestsSent (limit : Int) (env : Env) :
    requestsSent (drawCards env limit).events =
      if env.newRequestErr.isSome then [] else [buildRequest limit] := by
  unfold drawCards
  cases env.newRequestErr with
  | some e => rfl
  | none =>
    dsimp only
    rcases env.clientDo (buildRequest limit) with ⟨r, e⟩
    cases r with
    | none => rfl
    | some resp =>
      cases e with
      | some e => rfl
      | none =>
        dsimp only
        cases decodeBody resp.Body with
        | error e => rfl
        | ok cl =>
          by_cases hc : resp.StatusCode ≠ 200
          · simp only [if_pos hc]; rfl
          · simp only [if_neg hc]; rfl

/-- Claim C1. For every limit `N` (in particular every `N > 0`) the request
`drawCards` builds is a `GET` to `https://api.pokemontcg.io/v2/cards` whose query,
decoded by `url.ParseQuery`, decodes without error and holds exactly three
parameters with one value each: `orderBy` = `id`, `pageSize` = the decimal
rendering of `N`, and `q` = the fixed filter; the first and the last do not
mention `N`. That request is the one `drawCards` hands to `client.Do`. -/
theorem drawCards_request (N : Int) :
    (buildRequest N).Method = "GET"
    ∧ (buildRequest N).URL = "https://api.pokemontcg.io/v2/cards"
    ∧ parseQuery (buildRequest N).RawQuery =
        ([(utf8 "orderBy", [utf8 "id"]),
          (utf8 "pageSize", [utf8 (Itoa N)]),
          (utf8 "q", [utf8 "(types:fire OR types:grass) -types:metal rarity:rare -rarity:holo -rarity:promo"])],
         false)
    ∧ ∀ env : Env, requestsSent (drawCards env N).events =
        if env.newRequestErr.isSome then [] else [buildRequest N] := by
  refine ⟨rfl, rfl, ?_, drawCards_requestsSent N⟩
  have hD := Itoa_mem_itoaChars N
  have hamp : '&' ∉ "pageSize=".toList ++ (Itoa N).toList := by
    intro hm
    rcases List.mem_append.mp hm with hm | hm
    · exact absurd hm (by decide)
    · exact (itoaChars_facts _ (hD _ hm)).2.2.1 rfl
  have hu : utf8 (Itoa N) = (Itoa N).toList.map Char.toNat := utf8_of_itoaChars _ hD
  rw [parseQuery, buildRequest_rawQuery, splitAt_append_sep _ _ _ (by decide),
    splitAt_append_sep _ _ _ hamp, splitAt_of_not_mem _ _ (by decide)]
  simp only [parseSegments]
  rw [show parseSegment [] "orderBy=id".toList = ([(utf8 "orderBy", [utf8 "id"])], false) from by rfl]
  simp only [Bool.or_false, parseSegment_pageSize _ _ hD, hu]
  rfl

/-! ## Decoding a well-formed body -/

theorem decodeString_of_fits (old : String) (j : Json) (h : isStringOrNull j = true) :
    ∃ s, decodeString old j = some s := by
  cases j <;> simp_all [isStringOrNull, decodeString]

theorem decodeStringElems_of_fits (js : List Json) :
    ∀ old : List String, js.all isStringOrNull = true → ∃ ss, decodeStringElems old js = some ss := by
  induction js with
  | nil => intro old _; exact ⟨[], rfl⟩
  | cons j js ih =>
    intro old h
    rw [List.all_cons, Bool.and_eq_true] at h
    obtain ⟨s, hs⟩ := decodeString_of_fits (old.headD "") j h.1
    obtain ⟨ss, hss⟩ := ih old.tail h.2
    exact ⟨s :: ss, by rw [decodeStringElems, hs, hss]⟩

theorem decodeStringSlice_of_fits (old : SliceMem String) (j : Json)
    (h : isStringArrayOrNull j = true) : ∃ x, decodeStringSlice old j = some x := by
  cases j with
  | null => exact ⟨_, rfl⟩
  | arr js =>
    obtain ⟨ss, hss⟩ := decodeStringElems_of_fits js old.backing h
    simp only [decodeStringSlice]
    by_cases he : js.isEmpty = true
    · rw [if_pos he]; exact ⟨_, rfl⟩
    · rw [if_neg he, hss]; exact ⟨_, rfl⟩
  | _ => simp [isStringArrayOrNull] at h

theorem setCardField_of_fits (c : CardMem) (k : String) (v : Json) (f : String)
    (hf : findField cardFields k = some f) (h : memberFits (k, v) = true) :
    ∃ c', setCardField c f v = some c' := by
  simp only [memberFits, hf] at h
  unfold setCardField
  by_cases h1 : f = "ID"
  · subst h1
    obtain ⟨s, hs⟩ := decodeString_of_fits c.ID v (by simpa using h)
    rw [if_pos rfl, hs]; exact ⟨_, rfl⟩
  by_cases h2 : f = "Name"
  · subst h2
    obtain ⟨s, hs⟩ := decodeString_of_fits c.Name v (by simpa using h)
    rw [if_neg h1, if_pos rfl, hs]; exact ⟨_, rfl⟩
  by_cases h3 : f = "Types"
  · subst h3
    obtain ⟨s, hs⟩ := decodeStringSlice_of_fits c.Types v (by simpa using h)
    rw [if_neg h1, if_neg h2, if_pos rfl, hs]; exact ⟨_, rfl⟩
  by_cases h4 : f = "HP"
  · subst h4
    obtain ⟨s, hs⟩ := decodeString_of_fits c.HP v (by simpa using h)
    rw [if_neg h1, if_neg h2, if_neg h3, if_pos rfl, hs]; exact ⟨_, rfl⟩
  by_cases h5 : f = "Rarity"
  · subst h5
    obtain ⟨s, hs⟩ := decodeString_of_fits c.Rarity v (by simpa using h)
    rw [if_neg h1, if_neg h2, if_neg h3, if_neg h4, if_pos rfl, hs]; exact ⟨_, rfl⟩
  exact ⟨c, by simp [h1, h2, h3, h4, h5]⟩

theorem decodeCardMembers_of_fits (ms : List (String × Json)) :
    ∀ c : CardMem, ms.all memberFits = true → ∃ c', decodeCardMembers c ms = some c' := by
  induction ms with
  | nil => intro c _; exact ⟨c, rfl⟩
  | cons m ms ih =>
    intro c h
    obtain ⟨k, v⟩ := m
    rw [List.all_cons, Bool.and_eq_true] at h
    cases hf : findField cardFields k with
    | none =>
      obtain ⟨c', hc'⟩ := ih c h.2
      exact ⟨c', by simp [decodeCardMembers, hf, hc']⟩
    | some f =>
      obtain ⟨c1, hc1⟩ := setCardField_of_fits c k v f hf h.1
      obtain ⟨c', hc'⟩ := ih c1 h.2
      exact ⟨c', by simp [decodeCardMembers, hf, hc1, hc']⟩

theorem decodeCard_of_isCardObject (old : CardMem) (o : Json) (h : isCardObject o = true) :
    ∃ c, decodeCard old o = some c := by
  cases o with
  | obj ms => exact decodeCardMembers_of_fits ms old h
  | _ => simp [isCardObject] at h

/-- Decoding an array of card objects into a fresh backing array gives one
variable per object, each the decoding of its object into a zero `Card`. -/
theorem decodeCardElems_of_isCardObject (objs : List Json)
    (h : ∀ o ∈ objs, isCardObject o = true) :
    ∃ mems, decodeCardElems [] objs = some mems
      ∧ List.Forall₂ (fun o m => decodeCard CardMem.zero o = some m) objs mems := by
  induction objs with
  | nil => exact ⟨[], rfl, List.Forall₂.nil⟩
  | cons o objs ih =>
    obtain ⟨c, hc⟩ := decodeCard_of_isCardObject CardMem.zero o (h o (List.mem_cons_self _ _))
    obtain ⟨cs, hcs, hall⟩ := ih (fun x hx => h x (List.mem_cons_of_mem _ hx))
    refine ⟨c :: cs, ?_, List.Forall₂.cons hc hall⟩
    simp only [decodeCardElems, List.headD_nil, List.tail_nil, hc, hcs]

/-- Decoding an array of card objects into a nil `[]Card` gives a slice with one
card per object, each the card its object decodes to in a fresh variable. -/
theorem decodeCardSlice_of_isCardObject (objs : List Json)
    (h : ∀ o ∈ objs, isCardObject o = true) :
    ∃ m cards, decodeCardSlice ⟨none, []⟩ (.arr objs) = some m
      ∧ m.slice.map (List.map CardMem.card) = some cards
      ∧ List.Forall₂ (fun o c => decodeFreshCard o = some c) objs cards := by
  obtain ⟨mems, hmems, hall⟩ := decodeCardElems_of_isCardObject objs h
  have hall2 : List.Forall₂ (fun o c => decodeFreshCard o = some c) objs
      (mems.map CardMem.card) := by
    rw [List.forall₂_map_right_iff]
    exact hall.imp (fun o m hm => by simp [decodeFreshCard, hm])
  simp only [decodeCardSlice]
  by_cases he : objs.isEmpty = true
  · rw [if_pos he]
    have : objs = [] := List.isEmpty_iff.mp he
    subst this
    cases hall
    exact ⟨_, [], rfl, rfl, List.Forall₂.nil⟩
  · rw [if_neg he]
    refine ⟨⟨some mems, []⟩, mems.map CardMem.card, ?_, rfl, hall2⟩
    show Option.map _ (decodeCardElems [] objs) = _
    rw [hmems]
    simp [SliceMem.backing]

theorem decodeCardListMembers_of_no_data (ms : List (String × Json)) (cl : CardListMem)
    (h : dataMembers ms = []) : decodeCardListMembers cl ms = some cl := by
  induction ms with
  | nil => rfl
  | cons m ms ih =>
    obtain ⟨k, v⟩ := m
    cases hf : findField cardListFields k with
    | none =>
      have : dataMembers ms = [] := by simpa [dataMembers, List.filter_cons, hf] using h
      simp [decodeCardListMembers, hf, ih this]
    | some f => simp [dataMembers, List.filter_cons, hf] at h

theorem decodeCardListMembers_of_one_data (ms : List (String × Json)) (cl : CardListMem)
    (v : Json) (cs : SliceMem CardMem) (h : dataMembers ms = [v])
    (hv : decodeCardSlice cl.Cards v = some cs) : decodeCardListMembers cl ms = some ⟨cs⟩ := by
  induction ms with
  | nil => simp [dataMembers] at h
  | cons m ms ih =>
    obtain ⟨k, w⟩ := m
    cases hf : findField cardListFields k with
    | none =>
      have : dataMembers ms = [v] := by simpa [dataMembers, List.filter_cons, hf] using h
      simp [decodeCardListMembers, hf, ih this]
    | some f =>
      have h2 : w = v ∧ dataMembers ms = [] := by
        simpa [dataMembers, List.filter_cons, hf] using h
      obtain ⟨rfl, hrest⟩ := h2
      simp [decodeCardListMembers, hf, hv, decodeCardListMembers_of_no_data ms ⟨cs⟩ hrest]

/-- The decoder keeps what a shrunk slice leaves in its backing array: after
`types` of two, then one, then one string and a `null`, the `null` leaves the
second string of the first array in place. -/
theorem decodeFreshCard_repeatedTypes :
    decodeFreshCard repeatedTypesObject = some ⟨"", "", some ["A", "Water"], "", ""⟩ := by
  decide

/-! ## `drawCards` on a received response -/

/-- Claim C2 as stated fails: a 200 response whose body is an object with a
`data` array of two card objects, followed by a member `DATA` with an array of
one card object. The second member selects the same field, so `drawCards`
returns one record, not two. -/
theorem drawCards_second_data_member :
    envSecondData.newRequestErr = none
    ∧ envSecondData.clientDo (buildRequest 10) =
        (some ⟨200, .ok (.obj [("data", .arr [sampleObject "a1", sampleObject "a2"]),
          ("DATA", .arr [sampleObject "zz"])])⟩, none)
    ∧ (∀ o ∈ [sampleObject "a1", sampleObject "a2"], isCardObject o = true)
    ∧ (drawCards envSecondData 10).outcome =
        .returned (some ⟨some [sampleCard "zz"]⟩, "200", none)
    ∧ ¬ ∃ cards : List Card,
        (drawCards envSecondData 10).outcome = .returned (some ⟨some cards⟩, "200", none)
        ∧ cards.length = [sampleObject "a1", sampleObject "a2"].length := by
  refine ⟨rfl, rfl, by decide, rfl, ?_⟩
  rintro ⟨cards, hout, hlen⟩
  have h1 : (drawCards envSecondData 10).outcome =
      .returned (some ⟨some [sampleCard "zz"]⟩, "200", none) := rfl
  rw [h1] at hout
  injection hout with hout
  injection hout with hfst _
  injection hfst with hcl
  injection hcl with hcards
  injection hcards with hcards
  subst hcards
  simp at hlen

/-- Claim C2, amended. A response with status 200 whose body is a JSON object in
which exactly one member selects the field `data`, its value an array of `K`
card objects: `drawCards` returns a non-nil `CardList` with `K` records, record
`i` being the card object `i` decodes to, the status string `200` and no error;
`len` of the returned cards, the count `main` reports, is `K`. -/
theorem drawCards_ok (env : Env) (limit : Int) (members : List (String × Json))
    (objs : List Json)
    (hnew : env.newRequestErr = none)
    (hdo : env.clientDo (buildRequest limit) = (some ⟨200, .ok (.obj members)⟩, none))
    (hdata : dataMembers members = [.arr objs])
    (hobjs : ∀ o ∈ objs, isCardObject o = true) :
    ∃ cards : List Card,
      (drawCards env limit).outcome = .returned (some ⟨some cards⟩, "200", none)
      ∧ cards.length = objs.length
      ∧ List.Forall₂ (fun o c => decodeFreshCard o = some c) objs cards
      ∧ (CardList.mk (some cards)).Cards.len = objs.length := by
  obtain ⟨m, cards, hm, hcards, hall⟩ := decodeCardSlice_of_isCardObject objs hobjs
  have hdec : decodeBody (.ok (.obj members)) = .ok ⟨some cards⟩ := by
    simp [decodeBody, decodeCardList, decodeCardListMem, CardListMem.cardList,
      decodeCardListMembers_of_one_data members ⟨⟨none, []⟩⟩ _ _ hdata hm, hcards]
  refine ⟨cards, ?_, hall.length_eq.symm, hall, hall.length_eq.symm⟩
  simp only [drawCards, hnew, hdo, hdec]
  rfl

/-- Witness of `drawCards_ok`: limit 5 and a 200 response with five card objects;
the five records are the five sample cards. -/
theorem drawCards_ok_witness :
    (envFiveCards.newRequestErr = none
      ∧ envFiveCards.clientDo (buildRequest 5) = (some ⟨200, .ok (.obj fiveCardsMembers)⟩, none)
      ∧ dataMembers fiveCardsMembers = [.arr [sampleObject "a1", sampleObject "a2",
          sampleObject "a3", sampleObject "a4", sampleObject "a5"]]
      ∧ ∀ o ∈ [sampleObject "a1", sampleObject "a2", sampleObject "a3", sampleObject "a4",
          sampleObject "a5"], isCardObject o = true)
    ∧ (∃ cards : List Card,
      (drawCards envFiveCards 5).outcome = .returned (some ⟨some cards⟩, "200", none)
      ∧ cards.length = 5
      ∧ List.Forall₂ (fun o c => decodeFreshCard o = some c)
          [sampleObject "a1", sampleObject "a2", sampleObject "a3", sampleObject "a4",
            sampleObject "a5"] cards
      ∧ (CardList.mk (some cards)).Cards.len = 5)
    ∧ (drawCards envFiveCards 5).outcome =
        .returned (some ⟨some [sampleCard "a1", sampleCard "a2", sampleCard "a3",
          sampleCard "a4", sampleCard "a5"]⟩, "200", none)
    ∧ decodeFreshCard (sampleObject "a1") = some ⟨"a1", "Charmander", some ["Fire"], "50", "Rare"⟩ :=
  ⟨⟨rfl, rfl, rfl, by decide⟩,
    drawCards_ok envFiveCards 5 fiveCardsMembers _ rfl rfl rfl (by decide), rfl, by decide⟩

/-- Claim C3. A response whose status is not 200 and whose body decodes:
`drawCards` returns the decoded `CardList` (non-nil), the decimal rendering of
the status, and the non-nil error `HTTP/<status>`. -/
theorem drawCards_non_ok_status (env : Env) (limit : Int) (resp : Response) (cl : CardList)
    (hnew : env.newRequestErr = none)
    (hdo : env.clientDo (buildRequest limit) = (some resp, none))
    (hcode : resp.StatusCode ≠ 200)
    (hdec : decodeBody resp.Body = .ok cl) :
    (drawCards env limit).outcome =
      .returned (some cl, Itoa resp.StatusCode, some (.httpStatus resp.StatusCode)) := by
  simp only [drawCards, hnew, hdo, hdec]
  rw [if_pos hcode]

/-- Witness of `drawCards_non_ok_status`: a 404 response with one card. -/
theorem drawCards_non_ok_status_witness :
    (envNotFound.newRequestErr = none
      ∧ envNotFound.clientDo (buildRequest 10) =
          (some ⟨404, .ok (.obj [("data", .arr [sampleObject "a1"])])⟩, none)
      ∧ (404 : Int) ≠ 200
      ∧ decodeBody (.ok (.obj [("data", .arr [sampleObject "a1"])])) = .ok ⟨some [sampleCard "a1"]⟩)
    ∧ (drawCards envNotFound 10).outcome =
      .returned (some ⟨some [sampleCard "a1"]⟩, Itoa 404, some (.httpStatus 404)) :=
  ⟨⟨rfl, rfl, by decide, rfl⟩,
    drawCards_non_ok_status envNotFound 10 ⟨404, .ok (.obj [("data", .arr [sampleObject "a1"])])⟩
      ⟨some [sampleCard "a1"]⟩ rfl rfl (by decide) rfl⟩

/-- Claim C4. A received response whose body fails to decode (the scanner fails,
or a value has the wrong JSON type), whatever its status: `drawCards` returns a
nil `CardList`, the decimal rendering of the status of that response, and a
non-nil error wrapping the decoding error. -/
theorem drawCards_decode_failure (env : Env) (limit : Int) (resp : Response) (e : GoError)
    (hnew : env.newRequestErr = none)
    (hdo : env.clientDo (buildRequest limit) = (some resp, none))
    (hdec : decodeBody resp.Body = .error e) :
    (drawCards env limit).outcome =
      .returned (none, Itoa resp.StatusCode, some (.wrapped "failed to decode JSON" e)) := by
  simp only [drawCards, hnew, hdo, hdec]

/-- Witness of `drawCards_decode_failure`: a 503 response whose body is not JSON. -/
theorem drawCards_decode_failure_witness :
    (envBadBody.newRequestErr = none
      ∧ envBadBody.clientDo (buildRequest 10) =
          (some ⟨503, .error "invalid character '<' looking for beginning of value"⟩, none)
      ∧ decodeBody (.error "invalid character '<' looking for beginning of value") =
          .error (.external "invalid character '<' looking for beginning of value"))
    ∧ (drawCards envBadBody 10).outcome =
      .returned (none, Itoa 503, some (.wrapped "failed to decode JSON"
        (.external "invalid character '<' looking for beginning of value"))) :=
  ⟨⟨rfl, rfl, rfl⟩,
    drawCards_decode_failure envBadBody 10
      ⟨503, .error "invalid character '<' looking for beginning of value"⟩ _ rfl rfl rfl⟩

/-- Claim C5, at the failing input. When `client.Do` returns no response and an
error (connection refused), `drawCards` does not return: reading
`resp.StatusCode` panics, after `client.Do` and before the error is looked at. -/
theorem drawCards_refused_panics :
    (drawCards envRefused 10).outcome = .panicked
    ∧ requestsSent (drawCards envRefused 10).events = [buildRequest 10] :=
  ⟨rfl, rfl⟩

/-! ## `main` -/

/-- The events of `drawCards` are span, request and body events only: nothing is
printed, nothing is logged, the provider is not shut down. -/
theorem drawCards_events_quiet (env : Env) (limit : Int) :
    stdout (drawCards env limit).events = []
    ∧ (∀ l, logged l (drawCards env limit).events = [])
    ∧ shutdownCalls (drawCards env limit).events = 0 := by
  unfold drawCards
  cases env.newRequestErr with
  | some e => exact ⟨rfl, fun _ => rfl, rfl⟩
  | none =>
    dsimp only
    rcases env.clientDo (buildRequest limit) with ⟨r, e⟩
    cases r with
    | none => exact ⟨rfl, fun _ => rfl, rfl⟩
    | some resp =>
      cases e with
      | some e => exact ⟨rfl, fun _ => rfl, rfl⟩
      | none =>
        dsimp only
        cases decodeBody resp.Body with
        | error e => exact ⟨rfl, fun _ => rfl, rfl⟩
        | ok cl =>
          by_cases hc : resp.StatusCode ≠ 200
          · simp only [if_pos hc]; exact ⟨rfl, fun _ => rfl, rfl⟩
          · simp only [if_neg hc]; exact ⟨rfl, fun _ => rfl, rfl⟩

/-- The run of `main` when the set-up succeeds and `drawCards` returns an error:
the set-up, the events of `drawCards`, the `Fatalf` on the `ERROR` logger, and
the exit with status 1. -/
theorem main_of_fetch_error (env : Env) (cardData : Option CardList) (s : String) (e : GoError)
    (hmk : env.mkdirErr = none) (hop : env.openErr = none) (hex : env.exporterErr = none)
    (hfetch : (drawCards env env.limit).outcome = .returned (cardData, s, some e)) :
    main env =
      [.mkdirAll "./logs", .openFile env.logFile, .newExporter, .spanStart "drawCards"]
        ++ (drawCards env env.limit).events
        ++ [.logPrintf .error "%s: %v" [.text "Failed to make cards appear", .err e], .exit 1] := by
  simp only [main, errHandler, initTraceProvider, logError, hmk, hop, hex, hfetch,
    List.cons_append, List.nil_append]

/-- The run of `main` when the set-up succeeds and `drawCards` returns without
error: the set-up, the events of `drawCards`, the `INFO` line, the output, the
deferred calls, and the return. -/
theorem main_of_fetch_ok (env : Env) (cl : CardList) (s : String)
    (hmk : env.mkdirErr = none) (hop : env.openErr = none) (hex : env.exporterErr = none)
    (hfetch : (drawCards env env.limit).outcome = .returned (some cl, s, none)) :
    main env =
      [.mkdirAll "./logs", .openFile env.logFile, .newExporter, .spanStart "drawCards"]
        ++ (drawCards env env.limit).events
        ++ [.logPrintf .info "%s" [.text (summary s cl.Cards.len)],
            .println (.obj [("Cards", marshalCards cl.Cards)])]
        ++ deferred env ++ [.exit 0] := by
  simp only [main, errHandler, initTraceProvider, logError, logInfo, marshalOutput, hmk, hop,
    hex, hfetch, List.cons_append, List.nil_append, List.append_assoc]

/-- Claim C6. When `drawCards` returns a non-nil error (with or without a decoded
`CardList`), `main` logs exactly one call on the `ERROR` logger, the `Fatalf` of
that error, ends with exit status 1 right after it, writes nothing to standard
output and logs nothing on the `INFO` logger. -/
theorem main_fetch_error_is_fatal (env : Env) (cardData : Option CardList) (s : String)
    (e : GoError)
    (hmk : env.mkdirErr = none) (hop : env.openErr = none) (hex : env.exporterErr = none)
    (hfetch : (drawCards env env.limit).outcome = .returned (cardData, s, some e)) :
    logged .error (main env) = [("%s: %v", [.text "Failed to make cards appear", .err e])]
    ∧ (∃ before, main env = before ++
        [.logPrintf .error "%s: %v" [.text "Failed to make cards appear", .err e], .exit 1])
    ∧ stdout (main env) = []
    ∧ logged .info (main env) = [] := by
  have hq := drawCards_events_quiet env env.limit
  have hmain := main_of_fetch_error env cardData s e hmk hop hex hfetch
  refine ⟨?_, ⟨_, hmain⟩, ?_, ?_⟩
  · rw [hmain]
    simp only [logged, List.filterMap_append] at hq ⊢
    rw [hq.2.1 .error]; rfl
  · rw [hmain]
    simp only [stdout, List.filterMap_append] at hq ⊢
    rw [hq.1]; rfl
  · rw [hmain]
    simp only [logged, List.filterMap_append] at hq ⊢
    rw [hq.2.1 .info]; rfl

/-- Witness of `main_fetch_error_is_fatal`: a 500 response whose body is the
object with an empty `data` array. -/
theorem main_fetch_error_is_fatal_witness :
    (envServerError.mkdirErr = none ∧ envServerError.openErr = none
      ∧ envServerError.exporterErr = none
      ∧ (drawCards envServerError envServerError.limit).outcome =
          .returned (some ⟨some []⟩, "500", some (.httpStatus 500)))
    ∧ (logged .error (main envServerError) =
          [("%s: %v", [.text "Failed to make cards appear", .err (.httpStatus 500)])]
      ∧ (∃ before, main envServerError = before ++
          [.logPrintf .error "%s: %v"
            [.text "Failed to make cards appear", .err (.httpStatus 500)], .exit 1])
      ∧ stdout (main envServerError) = []
      ∧ logged .info (main envServerError) = []) :=
  ⟨⟨rfl, rfl, rfl, rfl⟩,
    main_fetch_error_is_fatal envServerError (some ⟨some []⟩) "500" (.httpStatus 500)
      rfl rfl rfl rfl⟩

/-- Claim C8 as stated fails: after a 200 response whose body is the empty
object the fetch succeeds with a nil slice of cards, and `main` prints the
object whose member `Cards` is `null`, not an array. -/
theorem main_nil_cards_prints_null :
    envEmptyObject.mkdirErr = none ∧ envEmptyObject.openErr = none
    ∧ envEmptyObject.exporterErr = none
    ∧ (drawCards envEmptyObject envEmptyObject.limit).outcome =
        .returned (some ⟨none⟩, "200", none)
    ∧ stdout (main envEmptyObject) = [.obj [("Cards", .null)]]
    ∧ ∀ cards : List Json, stdout (main envEmptyObject) ≠ [.obj [("Cards", .arr cards)]] := by
  refine ⟨rfl, rfl, rfl, rfl, rfl, ?_⟩
  intro cards h
  have h1 : stdout (main envEmptyObject) = [.obj [("Cards", .null)]] := rfl
  rw [h1] at h
  injection h with h _
  injection h with h
  injection h with h _
  injection h with _ h
  injection h

/-- Claim C8, amended. After a fetch that returns status string `s`, a `CardList`
and no error, `main` writes to standard output exactly one JSON value, an object
with the single member `Cards`. Its value is `null` when the fetched slice is
nil, and otherwise the array of the cards in fetched order, each an object with
the members `ID`, `Name`, `Types`, `HP`, `Rarity` in that order: the four
strings as JSON strings, `Types` as the array of the strings of the card (`null`
when that slice is nil). And `main` logs exactly one call on the `INFO` logger,
with the text `HTTP/<s> A wild <K> cards appeared!` and a line end, `K` being the
number of cards. -/
theorem main_success_output (env : Env) (cl : CardList) (s : String)
    (hmk : env.mkdirErr = none) (hop : env.openErr = none) (hex : env.exporterErr = none)
    (hfetch : (drawCards env env.limit).outcome = .returned (some cl, s, none)) :
    stdout (main env) =
      [.obj [("Cards",
        match cl.Cards with
        | some cards => .arr (cards.map fun c =>
            .obj [("ID", .str c.ID), ("Name", .str c.Name),
              ("Types",
                match c.Types with
                | some types => .arr (types.map fun t => .str t)
                | none => .null),
              ("HP", .str c.HP), ("Rarity", .str c.Rarity)])
        | none => .null)]]
    ∧ logged .info (main env) =
        [("%s", [.text ("HTTP/" ++ s ++ " A wild " ++ toString cl.Cards.len
          ++ " cards appeared!" ++ "\n")])] := by
  have hq := drawCards_events_quiet env env.limit
  have hmain := main_of_fetch_ok env cl s hmk hop hex hfetch
  have hd1 : stdout (deferred env) = [] := by
    unfold deferred shutdownProvider; cases env.shutdownErr <;> rfl
  have hd2 : logged .info (deferred env) = [] := by
    unfold deferred shutdownProvider; cases env.shutdownErr <;> rfl
  have hcard : ∀ c : Card, marshalCard c =
      .obj [("ID", .str c.ID), ("Name", .str c.Name),
        ("Types",
          match c.Types with
          | some types => .arr (types.map fun t => .str t)
          | none => .null),
        ("HP", .str c.HP), ("Rarity", .str c.Rarity)] := by
    intro c
    unfold marshalCard marshalStrings
    cases c.Types <;> rfl
  constructor
  · rw [hmain]
    simp only [stdout, List.filterMap_append] at hq hd1 ⊢
    rw [hq.1, hd1]
    cases hcs : cl.Cards with
    | none => rfl
    | some cards =>
      have hmap : cards.map marshalCard = cards.map fun c =>
          Json.obj [("ID", .str c.ID), ("Name", .str c.Name),
            ("Types",
              match c.Types with
              | some types => .arr (types.map fun t => .str t)
              | none => .null),
            ("HP", .str c.HP), ("Rarity", .str c.Rarity)] :=
        List.map_congr_left (fun c _ => hcard c)
      simp only [marshalCards, hmap]
      rfl
  · rw [hmain]
    simp only [logged, List.filterMap_append] at hq hd2 ⊢
    rw [hq.2.1 .info, hd2]
    simp [summary, String.append_assoc]

/-- Witness of `main_success_output`: limit 5 and a 200 response with five card
objects; the output is the object with the five cards written out, and the line
is `HTTP/200 A wild 5 cards appeared!`. -/
theorem main_success_output_witness :
    (envFiveCards.mkdirErr = none ∧ envFiveCards.openErr = none
      ∧ envFiveCards.exporterErr = none
      ∧ (drawCards envFiveCards envFiveCards.limit).outcome =
          .returned (some ⟨some [sampleCard "a1", sampleCard "a2", sampleCard "a3",
            sampleCard "a4", sampleCard "a5"]⟩, "200", none))
    ∧ (stdout (main envFiveCards) =
        [.obj [("Cards", .arr [sampleCardJson "a1", sampleCardJson "a2", sampleCardJson "a3",
          sampleCardJson "a4", sampleCardJson "a5"])]]
      ∧ logged .info (main envFiveCards) =
        [("%s", [.text "HTTP/200 A wild 5 cards appeared!\n"])]) :=
  ⟨⟨rfl, rfl, rfl, rfl⟩,
    main_success_output envFiveCards
      ⟨some [sampleCard "a1", sampleCard "a2", sampleCard "a3", sampleCard "a4",
        sampleCard "a5"]⟩ "200" rfl rfl rfl rfl⟩

/-- Claim C9, at the failing input. After a 500 response `main` ends through
`Fatalf` of `logError` with exit status 1 and `tp.Shutdown` is never called,
although the provider was initialised; after a 200 response (normal return) it
is called once. -/
theorem main_fatal_skips_shutdown :
    shutdownCalls (main envServerError) = 0
    ∧ (main envServerError).getLast? = some (.exit 1)
    ∧ Event.newExporter ∈ main envServerError
    ∧ shutdownCalls (main envFiveCards) = 1 := by
  refine ⟨rfl, rfl, ?_, rfl⟩
  simp [main, errHandler, initTraceProvider, envServerError, sampleEnv]

/-! ## The span attributes -/

/-- Claim C10. On the span `drawCardsHTTP`: when request construction fails no
attribute is recorded; on a received response whose body fails to decode no
attribute is recorded; on a received response whose body decodes, exactly
`http.status_code` and `json.unmarshal_time_ms` are recorded, followed by
`error` = `non-OK HTTP status code` exactly when the status is not 200. -/
theorem drawCards_span_attributes (env : Env) (limit : Int) :
    (∀ e, env.newRequestErr = some e →
      recordedAttrs "drawCardsHTTP" (drawCards env limit).events = [])
    ∧ (∀ resp e, env.newRequestErr = none →
        env.clientDo (buildRequest limit) = (some resp, none) →
        decodeBody resp.Body = .error e →
        recordedAttrs "drawCardsHTTP" (drawCards env limit).events = [])
    ∧ (∀ resp cl, env.newRequestErr = none →
        env.clientDo (buildRequest limit) = (some resp, none) →
        decodeBody resp.Body = .ok cl →
        recordedAttrs "drawCardsHTTP" (drawCards env limit).events =
          [.int "http.status_code" resp.StatusCode, .int "json.unmarshal_time_ms" env.elapsedMs]
            ++ if resp.StatusCode = 200 then []
               else [.string "error" "non-OK HTTP status code"]) := by
  refine ⟨?_, ?_, ?_⟩
  · intro e hnew
    simp only [drawCards, hnew]; rfl
  · intro resp e hnew hdo hdec
    simp only [drawCards, hnew, hdo, hdec]; rfl
  · intro resp cl hnew hdo hdec
    simp only [drawCards, hnew, hdo, hdec]
    by_cases hc : resp.StatusCode = 200
    · rw [if_neg (not_not.mpr hc), if_pos hc]; rfl
    · rw [if_pos hc, if_neg hc]; rfl

/-- Witness of `drawCards_span_attributes`: a failed request construction, a 503
response that is not JSON, a 404 response with one card, and a 200 response
with five cards. -/
theorem drawCards_span_attributes_witness :
    recordedAttrs "drawCardsHTTP" (drawCards envNoRequest 10).events = []
    ∧ recordedAttrs "drawCardsHTTP" (drawCards envBadBody 10).events = []
    ∧ recordedAttrs "drawCardsHTTP" (drawCards envNotFound 10).events =
        [.int "http.status_code" 404, .int "json.unmarshal_time_ms" 3,
          .string "error" "non-OK HTTP status code"]
    ∧ recordedAttrs "drawCardsHTTP" (drawCards envFiveCards 5).events =
        [.int "http.status_code" 200, .int "json.unmarshal_time_ms" 3] :=
  ⟨(drawCards_span_attributes envNoRequest 10).1 "net/http: nil Context" rfl,
    (drawCards_span_attributes envBadBody 10).2.1
      ⟨503, .error "invalid character '<' looking for beginning of value"⟩ _ rfl rfl rfl,
    (drawCards_span_attributes envNotFound 10).2.2
      ⟨404, .ok (.obj [("data", .arr [sampleObject "a1"])])⟩ ⟨some [sampleCard "a1"]⟩
      rfl rfl rfl,
    (drawCards_span_attributes envFiveCards 5).2.2
      ⟨200, .ok (.obj fiveCardsMembers)⟩
      ⟨some [sampleCard "a1", sampleCard "a2", sampleCard "a3", sampleCard "a4",
        sampleCard "a5"]⟩ rfl rfl rfl⟩

/-! ## Encoding and decoding the cards -/

theorem decodeStringElems_map_str (l : List String) :
    decodeStringElems [] (l.map Json.str) = some l := by
  induction l with
  | nil => rfl
  | cons s l ih => simp only [List.map_cons, decodeStringElems, List.tail_nil, ih]; rfl

theorem decodeStringSlice_marshalStrings (x : Slice String) :
    decodeStringSlice ⟨none, []⟩ (marshalStrings x) = some ⟨x, []⟩ := by
  cases x with
  | none => rfl
  | some l =>
    cases l with
    | nil => rfl
    | cons s l =>
      have h := decodeStringElems_map_str (s :: l)
      simp only [List.map_cons] at h
      simp [marshalStrings, decodeStringSlice, SliceMem.backing, h]

/-- Decoding the encoding of a card into a zero `Card` gives the card back. -/
theorem decodeCard_marshalCard (c : Card) :
    decodeCard CardMem.zero (marshalCard c) = some (CardMem.ofCard c) := by
  have h := decodeStringSlice_marshalStrings c.Types
  have e1 : findField cardFields "ID" = some "ID" := by decide
  have e2 : findField cardFields "Name" = some "Name" := by decide
  have e3 : findField cardFields "Types" = some "Types" := by decide
  have e4 : findField cardFields "HP" = some "HP" := by decide
  have e5 : findField cardFields "Rarity" = some "Rarity" := by decide
  simp [decodeCard, marshalCard, decodeCardMembers, e1, e2, e3, e4, e5, setCardField,
    decodeString, CardMem.zero, CardMem.ofCard, h]

theorem decodeCardElems_map_marshalCard (l : List Card) :
    decodeCardElems [] (l.map marshalCard) = some (l.map CardMem.ofCard) := by
  induction l with
  | nil => rfl
  | cons c l ih =>
    simp only [List.map_cons, decodeCardElems, List.tail_nil, List.headD_nil,
      decodeCard_marshalCard, ih]

theorem card_ofCard (l : List Card) : (l.map CardMem.ofCard).map CardMem.card = l := by
  induction l with
  | nil => rfl
  | cons c l ih => simp only [List.map_cons, ih]; rfl

theorem decodeCardSlice_marshalCards (cards : Slice Card) :
    decodeCardSlice ⟨none, []⟩ (marshalCards cards) =
      some ⟨cards.map (List.map CardMem.ofCard), []⟩ := by
  cases cards with
  | none => rfl
  | some l =>
    cases l with
    | nil => rfl
    | cons c l =>
      have h := decodeCardElems_map_marshalCard (c :: l)
      simp only [List.map_cons] at h
      simp [marshalCards, decodeCardSlice, SliceMem.backing, h]

/-- Claim C7 as stated fails: decoding the object `main` prints for one card with
the decoder of `drawCards` gives a `CardList` with a nil slice, not the card. -/
theorem roundtrip_output_loses_cards :
    decodeCardList (marshalOutput (some [sampleCard "a1"])).1 = some ⟨none⟩
    ∧ decodeCardList (marshalOutput (some [sampleCard "a1"])).1
        ≠ some ⟨some [sampleCard "a1"]⟩ := by
  constructor
  · rfl
  · decide

/-- Claim C7, amended. For every slice of cards, the encoding of the cards that
`main` writes, placed under the member name `data` that `drawCards` reads,
decodes to a `CardList` with an equal slice of cards, field for field; the
object `main` itself writes, whose member is named `Cards`, decodes to a
`CardList` with a nil slice. -/
theorem roundtrip_cards (cards : Slice Card) :
    decodeCardList (.obj [("data", marshalCards cards)]) = some ⟨cards⟩
    ∧ (marshalOutput cards).1 = .obj [("Cards", marshalCards cards)]
    ∧ decodeCardList (marshalOutput cards).1 = some ⟨none⟩ := by
  have hd : findField cardListFields "data" = some "data" := by decide
  have hc : findField cardListFields "Cards" = none := by decide
  refine ⟨?_, rfl, ?_⟩
  · have hs := decodeCardSlice_marshalCards cards
    have hview : (cards.map (List.map CardMem.ofCard)).map (List.map CardMem.card) = cards := by
      cases cards with
      | none => rfl
      | some l => exact congrArg some (card_ofCard l)
    simp [decodeCardList, decodeCardListMem, decodeCardListMembers, hd, hs,
      CardListMem.cardList, hview]
  · simp [marshalOutput, decodeCardList, decodeCardListMem, decodeCardListMembers, hc,
      CardListMem.cardList]

end Pokecards
